import Mathlib

/-!
Shallow embedding of `objectReaderSHM.py`: a consumer of a fixed-layout
shared-memory segment of object-detection results, and a renderer that
overlays them on an image.

Modelling conventions:
* `c_int` fields are `Int` (concrete segments stay in 32-bit range).
* `c_float` confidence is the exact rational value of the 32-bit float as
  Python reads it (a Python float holds it exactly).
* The mapped segment after `SharedData.from_buffer_copy` is modelled
  directly at struct level: a `count` and the 10-entry detection array
  (as a list whose length is 10 for a well-formed segment).
* ctypes array indexing `shared.det[i]` raises `IndexError` out of range;
  we model element access by `List.get?`, `none` standing for the raised
  exception, which the `except` clause turns into an error message and a
  `None` return.
* cv2 images are abstract: `Image.decoded path` is the result of
  `cv2.imread path`, and each `cv2.rectangle` / `cv2.putText` call wraps
  the image in a `drawn` node recording its arguments. `cv2.imwrite` writes
  the image value; two written files are byte-identical iff the `Image`
  values coincide.
* `main` is a function of a `World` (argv, file-existence oracle, the
  shared segment state, image decodability oracle) returning the exit
  status together with the trace of I/O events, the files written and the
  lines printed.
-/

/-- Decimal digit characters of `n`, most significant first; `fuel`-bounded
recursion (any `fuel > n` is enough). -/
def natDigits : Nat → Nat → List Char
  | 0, _ => []
  | fuel + 1, n =>
    if n < 10 then [Nat.digitChar n]
    else natDigits fuel (n / 10) ++ [Nat.digitChar (n % 10)]

/-- Decimal string of a natural number, as Python `str` prints it. -/
def natToStr (n : Nat) : String :=
  ⟨natDigits (n + 1) n⟩

/-- Decimal string of an integer, as Python `str` prints it. -/
def intToStr (i : Int) : String :=
  if i < 0 then "-" ++ natToStr i.natAbs else natToStr i.natAbs

/-- Round the fraction `n / d` (with `d > 0`) to the nearest integer, ties
to even: the rounding that Python fixed-point float formatting performs
on the exact value. `f` is the floor and `r / d` the fractional part with
`0 ≤ r < d`, so `r/d < 1/2` is the integer comparison `2r < d`. -/
def roundHalfEvenFrac (n d : ℤ) : ℤ :=
  let f : ℤ := Int.fdiv n d
  let r : ℤ := n - f * d
  if 2 * r < d then f
  else if d < 2 * r then f + 1
  else if f % 2 = 0 then f else f + 1

/-- Python `f"{x:.2f}"` on the exact value `x = x.num / x.den` of the
float: round `x * 100 = (100 * x.num) / x.den` to an integer, ties to
even, and print its digits with a point before the last two; `x < 0` is
the integer comparison `x.num < 0`. -/
def formatFixed2 (x : ℚ) : String :=
  let n := roundHalfEvenFrac (x.num * 100) (x.den : ℤ)
  let m := n.natAbs
  let s := natToStr (m / 100) ++ "." ++ ⟨[Nat.digitChar (m / 10 % 10), Nat.digitChar (m % 10)]⟩
  if x.num < 0 then "-" ++ s else s

/-- One `Detection` record of the shared struct: `class_id` (c_int),
`confidence` (c_float, exact value), bounding box `x y w h` (c_int). -/
structure Detection where
  class_id : Int
  confidence : ℚ
  x : Int
  y : Int
  w : Int
  h : Int
  deriving DecidableEq, Repr

/-- The struct capacity `MAX_BOXES` of `objectReaderSHM.py`. -/
def MAX_BOXES : Nat := 10

/-- The well-known shared-memory object name `SHM_NAME`. -/
def SHM_NAME : String := "/ipc_yolov4_shm"

/-- The path probed by `read_shared_memory`: `"/dev/shm" + SHM_NAME`. -/
def shm_path : String := "/dev/shm" ++ SHM_NAME

/-- The `SharedData` struct after `from_buffer_copy`: the `count` header and
the fixed `Detection * MAX_BOXES` array (length 10 when well-formed). -/
structure SharedData where
  count : Int
  det : List Detection
  deriving DecidableEq, Repr

/-- State of the shared-memory object at `shm_path`: absent, or mapped and
holding a `SharedData` value. -/
inductive ShmState where
  | absent : ShmState
  | present : SharedData → ShmState
  deriving DecidableEq

/-- The `for i in range(count)` loop of `read_shared_memory`, run for `n`
iterations: iteration `i` indexes `det[i]` (raising, modelled `none`, when
`i` is out of the range of the array) and appends the parsed record. -/
def readDetections (det : List Detection) : Nat → Option (List Detection)
  | 0 => some []
  | n + 1 =>
    match readDetections det n, det.get? n with
    | some prev, some d => some (prev ++ [d])
    | _, _ => none

/-- Model of `read_shared_memory`: returns the parsed detection list (or
`none` on any error, matching the Python `None`) together with the error
lines printed. A negative `count` makes `range(count)` empty, hence
`Int.toNat`. -/
def read_shared_memory (s : ShmState) : Option (List Detection) × List String :=
  match s with
  | .absent => (none, ["Error: Shared memory not found at " ++ shm_path])
  | .present data =>
    match readDetections data.det data.count.toNat with
    | some l => (some l, [])
    | none => (none, ["Error reading shared memory: invalid index"])

/-- Index of the last occurrence of `c` in `p` (Python `str.rfind`, `none`
for the Python value `-1`). -/
def rfindIdx (c : Char) : List Char → Option Nat
  | [] => none
  | a :: as =>
    match rfindIdx c as with
    | some i => some (i + 1)
    | none => if a = c then some 0 else none

/-- Python `os.path.splitext` (posix): split off the extension at the last
dot that follows the last slash, unless every character between them is a
dot (leading dots of the basename never start an extension). -/
def splitext (p : List Char) : List Char × List Char :=
  let sepIdx := rfindIdx '/' p
  let dotIdx := rfindIdx '.' p
  match dotIdx with
  | none => (p, [])
  | some d =>
    let ok := match sepIdx with | none => true | some s => decide (s < d)
    if ok then
      let start := match sepIdx with | none => 0 | some s => s + 1
      if (List.range (d - start)).any (fun k => p.getD (start + k) '.' ≠ '.') then
        (p.take d, p.drop d)
      else (p, [])
    else (p, [])

/-- Output path derivation of `render_detections` when `output_path` is
`None`: `f"{base}_detected{ext}"` for `base, ext = os.path.splitext(p)`. -/
def derivedOutput (p : String) : String :=
  let be := splitext p.data
  ⟨be.1 ++ "_detected".data ++ be.2⟩

/-- One cv2 drawing call with its arguments: `cv2.rectangle img pt1 pt2
color thickness`, or `cv2.putText img text org` (font arguments fixed in
the source and omitted). -/
inductive DrawOp where
  | rectangle : Int × Int → Int × Int → Int × Int × Int → Int → DrawOp
  | putText : String → Int × Int → DrawOp
  deriving DecidableEq

/-- Abstract cv2 image: a freshly decoded file, or an image with one more
drawing call applied. -/
inductive Image where
  | decoded : String → Image
  | drawn : Image → DrawOp → Image
  deriving DecidableEq

/-- Drawing calls applied to an image since it was decoded, in order. -/
def Image.ops : Image → List DrawOp
  | .decoded _ => []
  | .drawn im op => im.ops ++ [op]

/-- The label text of a detection: `ID:` then the class id, a space, and
the confidence to two decimal places. -/
def detLabel (d : Detection) : String :=
  "ID:" ++ intToStr d.class_id ++ " " ++ formatFixed2 d.confidence

/-- One iteration of the drawing loop of `render_detections`:
`cv2.rectangle(img, (x,y), (x+w,y+h), (0,255,0), 2)` then
`cv2.putText(img, label, (x, max(10, y-5)), ...)`. -/
def drawDetection (im : Image) (d : Detection) : Image :=
  let im1 := Image.drawn im (.rectangle (d.x, d.y) (d.x + d.w, d.y + d.h) (0, 255, 0) 2)
  Image.drawn im1 (.putText (detLabel d) (d.x, max 10 (d.y - 5)))

/-- An I/O action of the program, for tracing which effects an invocation
performs: the shared-memory read, `cv2.imread`, `cv2.imwrite`. -/
inductive Event where
  | shmRead : Event
  | imageRead : String → Event
  | imageWrite : String → Event
  deriving DecidableEq

/-- Result of `render_detections`: the returned value (`some output_path`
or `none`), the files written as (path, image) pairs, the I/O events, and
the lines printed. -/
structure RenderResult where
  result : Option String
  written : List (String × Image)
  events : List Event
  msgs : List String
  deriving DecidableEq

/-- Model of `render_detections`: derive the output path when none is
supplied, decode the image (`dec` tells whether `cv2.imread` succeeds on a
path), draw a rectangle and a label per detection, write the result. On a
decode failure the error is printed and `None` returned. -/
def render_detections (dec : String → Bool) (image_path : String)
    (detections : List Detection) (output_path : Option String) : RenderResult :=
  let outPath := match output_path with
    | none => derivedOutput image_path
    | some p => p
  if dec image_path then
    let img := detections.foldl drawDetection (Image.decoded image_path)
    { result := some outPath
      written := [(outPath, img)]
      events := [.imageRead image_path, .imageWrite outPath]
      msgs := ["Rendering " ++ natToStr detections.length ++ " detection(s)...",
               "Saved to " ++ outPath] }
  else
    { result := none
      written := []
      events := [.imageRead image_path]
      msgs := ["Failed to load image: " ++ image_path] }

/-- The three usage lines printed on a wrong argument count. -/
def usageMsgs : List String :=
  ["Usage: python ipc_reader.py <image_path>",
   "Example: python ipc_reader.py sample.ppm",
   "\nNote: Run ipc_yolov4_replica.py first to populate shared memory"]

/-- The console line printed for detection number `i` by the listing loop
of `main`. -/
def detListLine (i : Nat) (d : Detection) : String :=
  "  [" ++ natToStr i ++ "] class_id=" ++ intToStr d.class_id ++
  " conf=" ++ formatFixed2 d.confidence ++
  " box=(" ++ intToStr d.x ++ "," ++ intToStr d.y ++ "," ++
  intToStr d.w ++ "," ++ intToStr d.h ++ ")"

/-- The world an invocation runs in: `sys.argv` (script name included),
the `os.path.exists` oracle for ordinary files, the shared-memory state at
`shm_path`, and the `cv2.imread`-succeeds oracle. -/
structure World where
  argv : List String
  fileExists : String → Bool
  shm : ShmState
  decodable : String → Bool

/-- Result of running `main` to completion: the value returned to
`sys.exit`, the ordered I/O events, the files written, the lines printed. -/
structure MainResult where
  exit : Int
  events : List Event
  written : List (String × Image)
  msgs : List String
  deriving DecidableEq

/-- Model of `main` (and the `sys.exit(main())` driver): argument-count
check, image-existence check, shared-memory read, detection listing,
rendering; the return value of `render_detections` is discarded and `0`
returned. -/
def mainRun (w : World) : MainResult :=
  if w.argv.length ≠ 2 then
    { exit := 1, events := [], written := [], msgs := usageMsgs }
  else
    let image_path := w.argv.getD 1 ""
    if w.fileExists image_path = false then
      { exit := 1, events := [], written := [],
        msgs := ["Error: Image not found: " ++ image_path] }
    else
      match read_shared_memory w.shm with
      | (none, rmsgs) =>
        { exit := 1, events := [.shmRead], written := [], msgs := rmsgs }
      | (some detections, rmsgs) =>
        let listing :=
          ("Read " ++ natToStr detections.length ++ " detection(s) from shared memory:")
            :: detections.enum.map (fun p => detListLine p.1 p.2)
        let r := render_detections w.decodable image_path detections none
        { exit := 0
          events := Event.shmRead :: r.events
          written := r.written
          msgs := rmsgs ++ listing ++ r.msgs }

/-! Helper lemmas about the reading loop. -/

theorem readDetections_of_le (det : List Detection) :
    ∀ n : Nat, n ≤ det.length → readDetections det n = some (det.take n) := by
  intro n
  induction n with
  | zero => intro _; rfl
  | succ m ih =>
    intro h
    have hm : m < det.length := Nat.lt_of_succ_le h
    have h1 := ih (Nat.le_of_lt hm)
    have h2 : det[m]? = some det[m] := List.getElem?_eq_getElem hm
    rw [readDetections, h1, List.get?_eq_getElem?, h2, List.take_succ, h2]
    rfl

theorem readDetections_of_gt (det : List Detection) (n : Nat)
    (h : det.length < n) : readDetections det n = none := by
  obtain ⟨m, rfl⟩ : ∃ m, n = det.length + m + 1 := ⟨n - det.length - 1, by omega⟩
  have h2 : det[det.length + m]? = none :=
    List.getElem?_eq_none (Nat.le_add_right _ _)
  cases h3 : readDetections det (det.length + m) with
  | none => rw [readDetections, h3]
  | some val => rw [readDetections, h3, List.get?_eq_getElem?, h2]

/-- Claim C1: for a well-formed segment whose `count` is `N` with `0 ≤ N ≤ 10`,
`read_shared_memory` returns exactly the first `N` entries of the 10-entry
detection array, in array order, and that list has length `N`. -/
theorem read_shared_memory_wellformed (data : SharedData) (N : Nat)
    (hlen : data.det.length = 10) (hcount : data.count = (N : Int))
    (hN : N ≤ 10) :
    (read_shared_memory (.present data)).1 = some (data.det.take N) ∧
    (data.det.take N).length = N := by
  have h1 : data.count.toNat = N := by omega
  have h2 : readDetections data.det N = some (data.det.take N) :=
    readDetections_of_le data.det N (by omega)
  refine ⟨?_, ?_⟩
  · simp [read_shared_memory, h1, h2]
  · rw [List.length_take]; omega

/-- A sample detection record used by concrete segments. -/
def sampleDet (k : Int) : Detection :=
  ⟨k, ⟨1, 2, by decide, by decide⟩, k + 1, k + 2, k + 3, k + 4⟩

/-- A concrete well-formed segment: `count = 2`, full 10-entry array. -/
def sampleSeg : SharedData :=
  ⟨2, [sampleDet 0, sampleDet 1, sampleDet 2, sampleDet 3, sampleDet 4,
       sampleDet 5, sampleDet 6, sampleDet 7, sampleDet 8, sampleDet 9]⟩

/-- Witness for C1 at the concrete segment `sampleSeg` (`count = 2`). -/
theorem read_shared_memory_wellformed_witness :
    (read_shared_memory (.present sampleSeg)).1 = some (sampleSeg.det.take 2) ∧
    (sampleSeg.det.take 2).length = 2 :=
  read_shared_memory_wellformed sampleSeg 2 (by decide) (by decide) (by decide)

/-- Claim C2: for a segment whose `count` exceeds the array capacity 10, the
indexing `shared.det[i]` fails once `i` reaches the array bound, so
`read_shared_memory` reports an error and returns `None`; no record beyond
the 10-entry array is ever produced. -/
theorem read_shared_memory_overflow (data : SharedData)
    (hlen : data.det.length = 10) (hcount : 10 < data.count) :
    (read_shared_memory (.present data)).1 = none ∧
    "Error reading shared memory: invalid index" ∈
      (read_shared_memory (.present data)).2 := by
  have h2 : readDetections data.det data.count.toNat = none :=
    readDetections_of_gt data.det data.count.toNat (by omega)
  refine ⟨?_, ?_⟩ <;> simp [read_shared_memory, h2]

/-- A concrete segment whose `count` (11) exceeds the capacity. -/
def overflowSeg : SharedData :=
  ⟨11, sampleSeg.det⟩

/-- Witness for C2 at the concrete segment `overflowSeg` (`count = 11`). -/
theorem read_shared_memory_overflow_witness :
    (read_shared_memory (.present overflowSeg)).1 = none ∧
    "Error reading shared memory: invalid index" ∈
      (read_shared_memory (.present overflowSeg)).2 :=
  read_shared_memory_overflow overflowSeg (by decide) (by decide)

/-- Claim C10: for a segment whose `count` is negative, `range(count)` is empty,
so `read_shared_memory` succeeds with the empty list and prints no error. -/
theorem read_shared_memory_negative (data : SharedData)
    (hcount : data.count < 0) :
    read_shared_memory (.present data) = (some [], []) := by
  have h1 : data.count.toNat = 0 := by omega
  simp [read_shared_memory, h1, readDetections]

/-- A concrete segment with a negative `count`. -/
def negSeg : SharedData :=
  ⟨-3, sampleSeg.det⟩

/-- Witness for C10 at the concrete segment `negSeg` (`count = -3`). -/
theorem read_shared_memory_negative_witness :
    read_shared_memory (.present negSeg) = (some [], []) :=
  read_shared_memory_negative negSeg (by decide)

/-- Claim C3: with the shared-memory object absent at `shm_path`,
`read_shared_memory` returns `None` and prints the not-found error, and
`main` returns a non-zero status (1) whatever the rest of the world is. -/
theorem absent_shm_fails (w : World) (h : w.shm = .absent) :
    (read_shared_memory w.shm).1 = none ∧
    ("Error: Shared memory not found at " ++ shm_path) ∈
      (read_shared_memory w.shm).2 ∧
    (mainRun w).exit = 1 := by
  refine ⟨by rw [h]; rfl, by rw [h]; simp [read_shared_memory], ?_⟩
  simp only [mainRun, h, read_shared_memory]
  split
  · rfl
  · split
    · rfl
    · rfl

/-- A concrete world with the shared-memory object absent. -/
def absentWorld : World :=
  ⟨["ipc_reader.py", "img.ppm"], fun _ => true, .absent, fun _ => true⟩

/-- Witness for C3 at `absentWorld`. -/
theorem absent_shm_fails_witness :
    (read_shared_memory absentWorld.shm).1 = none ∧
    ("Error: Shared memory not found at " ++ shm_path) ∈
      (read_shared_memory absentWorld.shm).2 ∧
    (mainRun absentWorld).exit = 1 :=
  absent_shm_fails absentWorld rfl

/-- Claim C5: with an argument count other than exactly one image path
(`len(sys.argv) != 2`), `main` prints the usage lines and returns 1,
performing no I/O at all: no events, no file written. -/
theorem wrong_argc_usage (w : World) (h : w.argv.length ≠ 2) :
    mainRun w = { exit := 1, events := [], written := [], msgs := usageMsgs } := by
  simp [mainRun, h]

/-- A concrete world invoked with no argument besides the script name. -/
def noArgWorld : World :=
  ⟨["ipc_reader.py"], fun _ => true, .present sampleSeg, fun _ => true⟩

/-- Witness for C5 at `noArgWorld` (argument count 1). -/
theorem wrong_argc_usage_witness :
    mainRun noArgWorld = { exit := 1, events := [], written := [], msgs := usageMsgs } :=
  wrong_argc_usage noArgWorld (by decide)

/-- Claim C6: with a single image path that does not exist, `main` returns 1
with an empty event trace, so in particular the shared-memory read is
never attempted. -/
theorem missing_image_before_shm (w : World)
    (h2 : w.argv.length = 2)
    (h : w.fileExists (w.argv.getD 1 "") = false) :
    (mainRun w).exit = 1 ∧ (mainRun w).events = [] ∧
    Event.shmRead ∉ (mainRun w).events := by
  simp only [mainRun, h2, h]
  norm_num

/-- A concrete world whose image path does not exist. -/
def missingImageWorld : World :=
  ⟨["ipc_reader.py", "img.ppm"], fun _ => false, .present sampleSeg, fun _ => true⟩

/-- Witness for C6 at `missingImageWorld`. -/
theorem missing_image_before_shm_witness :
    (mainRun missingImageWorld).exit = 1 ∧
    (mainRun missingImageWorld).events = [] ∧
    Event.shmRead ∉ (mainRun missingImageWorld).events :=
  missing_image_before_shm missingImageWorld (by decide) (by decide)

/-- Claim C8: with an empty detection sequence the drawing loop runs zero times,
so the written file is the decoded input image with no drawing call
applied — byte-identical to the input re-encoded unchanged. -/
theorem render_empty_unchanged (dec : String → Bool) (p : String)
    (hdec : dec p = true) :
    (render_detections dec p [] none).written =
      [(derivedOutput p, Image.decoded p)] ∧
    (Image.decoded p).ops = [] := by
  refine ⟨?_, rfl⟩
  simp [render_detections, hdec]

/-- Witness for C8 at the input path `sample.ppm` with a decoder that
succeeds on it. -/
theorem render_empty_unchanged_witness :
    (render_detections (fun _ => true) "sample.ppm" [] none).written =
      [(derivedOutput "sample.ppm", Image.decoded "sample.ppm")] ∧
    (Image.decoded "sample.ppm").ops = [] :=
  render_empty_unchanged (fun _ => true) "sample.ppm" rfl

/-- A concrete world whose image file exists but cannot be decoded, with a
valid empty shared segment: the setting of a rendering decode failure. -/
def undecodableWorld : World :=
  ⟨["ipc_reader.py", "img.ppm"], fun _ => true,
   .present ⟨0, sampleSeg.det⟩, fun _ => false⟩

/-- Counterexample to C4 as stated: in `undecodableWorld` the image-decode
failure during rendering is reported and no output image is produced, yet
`main` returns exit status 0, not a non-zero status. -/
theorem render_failure_exit_zero_counterexample :
    ("Failed to load image: img.ppm") ∈ (mainRun undecodableWorld).msgs ∧
    (mainRun undecodableWorld).written = [] ∧
    (mainRun undecodableWorld).exit = 0 := by
  decide

/-- Claim C4 amended: an image-decode failure during rendering is reported and
produces no output image, but `main` discards the return value of
`render_detections`, so the process exits with status 0. -/
theorem render_failure_reported_exit_zero (w : World)
    (dets : List Detection) (rmsgs : List String)
    (h2 : w.argv.length = 2)
    (hex : w.fileExists (w.argv.getD 1 "") = true)
    (hread : read_shared_memory w.shm = (some dets, rmsgs))
    (hdec : w.decodable (w.argv.getD 1 "") = false) :
    ("Failed to load image: " ++ w.argv.getD 1 "") ∈ (mainRun w).msgs ∧
    (mainRun w).written = [] ∧
    (mainRun w).exit = 0 := by
  simp only [mainRun, h2, hex, hread, render_detections, hdec]
  norm_num

/-- Witness for the amended C4 at `undecodableWorld`. -/
theorem render_failure_reported_exit_zero_witness :
    ("Failed to load image: " ++ undecodableWorld.argv.getD 1 "") ∈
      (mainRun undecodableWorld).msgs ∧
    (mainRun undecodableWorld).written = [] ∧
    (mainRun undecodableWorld).exit = 0 :=
  render_failure_reported_exit_zero undecodableWorld [] [] (by decide) rfl
    (by decide) rfl

/-! Helper lemmas about `rfindIdx` and `splitext`. -/

theorem rfindIdx_eq_none (c : Char) (l : List Char) (h : c ∉ l) :
    rfindIdx c l = none := by
  induction l with
  | nil => rfl
  | cons a as ih =>
    have h1 : c ∉ as := fun hm => h (List.mem_cons_of_mem _ hm)
    have h2 : ¬ (a = c) := fun he => h (he ▸ List.mem_cons_self a as)
    simp [rfindIdx, ih h1, h2]

theorem rfindIdx_append_cons (c : Char) (l₁ l₂ : List Char) (h : c ∉ l₂) :
    rfindIdx c (l₁ ++ c :: l₂) = some l₁.length := by
  induction l₁ with
  | nil => simp [rfindIdx, rfindIdx_eq_none c l₂ h]
  | cons a as ih => simp [rfindIdx, ih]

theorem splitext_base_ext (base ext : List Char)
    (hb : base ≠ []) (hbd : '.' ∉ base) (hbs : '/' ∉ base)
    (hed : '.' ∉ ext) (hes : '/' ∉ ext) :
    splitext (base ++ '.' :: ext) = (base, '.' :: ext) := by
  have hslash : rfindIdx '/' (base ++ '.' :: ext) = none := by
    apply rfindIdx_eq_none
    intro hm
    rcases List.mem_append.mp hm with hm1 | hm2
    · exact hbs hm1
    · rcases List.mem_cons.mp hm2 with hm3 | hm4
      · exact absurd hm3 (by decide)
      · exact hes hm4
  have hdot : rfindIdx '.' (base ++ '.' :: ext) = some base.length :=
    rfindIdx_append_cons '.' base ext hed
  obtain ⟨b, bs, rfl⟩ := List.exists_cons_of_ne_nil hb
  have hbne : ¬ (b = '.') := fun he => hbd (he ▸ List.mem_cons_self b bs)
  have hany : (List.range ((b :: bs).length - 0)).any
      (fun k => ((b :: bs) ++ '.' :: ext).getD (0 + k) '.' ≠ '.') = true := by
    apply List.any_eq_true.mpr
    refine ⟨0, List.mem_range.mpr (by simp), ?_⟩
    simp [hbne]
  simp only [splitext, hslash, hdot, hany]
  simp [List.take_left, List.drop_left]

/-- Claim C7: with no output path supplied, `render_detections` writes to the
input path with `_detected` inserted before the extension: for input
`base.ext` (a dot-free, slash-free base and extension) the returned and
written path is `base_detected.ext`. -/
theorem derived_output_inserts_suffix (dec : String → Bool)
    (dets : List Detection) (base ext : List Char)
    (hb : base ≠ []) (hbd : '.' ∉ base) (hbs : '/' ∉ base)
    (hed : '.' ∉ ext) (hes : '/' ∉ ext)
    (hdec : dec ⟨base ++ '.' :: ext⟩ = true) :
    (render_detections dec ⟨base ++ '.' :: ext⟩ dets none).result
      = some ⟨base ++ "_detected".data ++ '.' :: ext⟩ ∧
    ((render_detections dec ⟨base ++ '.' :: ext⟩ dets none).written.map
      Prod.fst) = [⟨base ++ "_detected".data ++ '.' :: ext⟩] := by
  have hsplit := splitext_base_ext base ext hb hbd hbs hed hes
  have hout : derivedOutput ⟨base ++ '.' :: ext⟩
      = ⟨base ++ "_detected".data ++ '.' :: ext⟩ := by
    simp only [derivedOutput]
    rw [hsplit]
  refine ⟨?_, ?_⟩ <;> simp [render_detections, hdec, hout]

/-- Witness for C7 at the input `sample.ppm`. -/
theorem derived_output_inserts_suffix_witness :
    (render_detections (fun _ => true) ⟨"sample".data ++ '.' :: "ppm".data⟩
      [] none).result
      = some ⟨"sample".data ++ "_detected".data ++ '.' :: "ppm".data⟩ ∧
    ((render_detections (fun _ => true) ⟨"sample".data ++ '.' :: "ppm".data⟩
      [] none).written.map Prod.fst)
      = [⟨"sample".data ++ "_detected".data ++ '.' :: "ppm".data⟩] :=
  derived_output_inserts_suffix (fun _ => true) [] "sample".data "ppm".data
    (by decide) (by decide) (by decide) (by decide) (by decide) rfl

/-- The single detection of C9; its confidence is the exact value of the
32-bit float nearest 0.87, namely 7298089 / 2^23. -/
def d9 : Detection :=
  ⟨3, ⟨7298089, 8388608, by decide, by decide⟩, 10, 20, 30, 40⟩

/-- Claim C9: rendering the single detection `d9` draws a rectangle with corners
(10,20) and (40,60) and then a text label at (10, 15) whose string
contains "3" and the two-decimal confidence "0.87". -/
theorem render_single_detection :
    (render_detections (fun _ => true) "sample.ppm" [d9] none).written =
      [("sample_detected.ppm",
        Image.drawn
          (Image.drawn (Image.decoded "sample.ppm")
            (.rectangle (10, 20) (40, 60) (0, 255, 0) 2))
          (.putText (detLabel d9) (10, 15)))] ∧
    List.IsInfix "3".data (detLabel d9).data ∧
    List.IsInfix "0.87".data (detLabel d9).data := by
  decide
